import Mathlib

/-!
# Verification of the mongeu campaign store and measurement engine

Shallow embedding of `src/energy.rs` and the relevant parts of `src/main.rs`
of the mongeu GPU-energy telemetry service.

Modelling conventions:
* `Instant` (Rust's monotonic clock reading) is a `Nat`; `Duration` is a `Nat`.
  `Instant::duration_since` and `Instant - Duration` become truncated `Nat`
  subtraction.
* Fallible NVML calls return `Except Err α` with `Err := String`
  (Rust `anyhow::Result`).
* An NVML device handle is an opaque `Nat`; the hardware state at the moment a
  call is made is a `World : DeviceHandle → DeviceResponses` giving the result
  of each fallible method call on each handle at that moment.  Code that in
  Rust performs device I/O takes the `World` of the moment as an explicit
  argument.
* `std::collections::HashMap<BMId, BaseMeasurement>` is an association list
  `List (BMId × BaseMeasurement)` with (invariantly) no duplicate keys;
  `HashMap::len` is the list length, `HashMap::remove`/`retain` are filters.
* `u32` / `u64` values are `Nat`s; the wrapping addition of the ID counter is
  taken `% 2^32` (`u32::wrapping_add`), and `u64::saturating_sub` is `Nat`
  truncated subtraction.
* Rust `&mut self` methods become functions returning the result together with
  the updated store; error paths return the store unchanged exactly where the
  Rust code performs no mutation before the `?` propagation point.
-/

/-- Errors carried by `anyhow::Result` are modelled as plain strings. -/
abbrev Err := String

/-- An opaque NVML device handle (`nvml::Device`). -/
abbrev DeviceHandle := Nat

/-- Identifier for a `BaseMeasurement` in a `BaseMeasurements` (Rust `BMId = u32`). -/
abbrev BMId := Nat

/-- The results the hardware would return, at one moment, for the fallible
method calls on one device handle: `Device::index()` and
`Device::total_energy_consumption()` (in mJ). -/
structure DeviceResponses where
  index : Except Err Nat
  totalEnergyConsumption : Except Err Nat

/-- The hardware state at one moment: what each handle's method calls return. -/
abbrev World := DeviceHandle → DeviceResponses

/-- The NVML library handle (`nvml::Nvml`): device enumeration and handle
lookup, both fallible. -/
structure Nvml where
  deviceCount : Except Err Nat
  deviceByIndex : Nat → Except Err DeviceHandle

/-- Total energy consumption of a specific device at baseline time
(`BaseDeviceData` in `energy.rs`): the retained device handle and the baseline
cumulative energy in mJ. -/
structure BaseDeviceData where
  device : DeviceHandle
  energy : Nat
  deriving DecidableEq, Repr

/-- A base measurement across multiple devices (`BaseMeasurement`):
capture time and the per-device baseline data, in enumeration order. -/
structure BaseMeasurement where
  time : Nat
  devices : List BaseDeviceData
  deriving DecidableEq, Repr

/-- Data associated with a specific device in a measurement (`DeviceData`):
device index and energy delta in mJ. -/
structure DeviceData where
  id : Nat
  energy : Nat
  deriving DecidableEq, Repr

/-- A measurement across multiple devices (`Measurement`): elapsed duration
and per-device deltas. -/
structure Measurement where
  duration : Nat
  devices : List DeviceData
  deriving DecidableEq, Repr

/-- Store for measurement campaigns (`BaseMeasurements`): the ID counter and
the campaign map (`HashMap` as an association list). `#[derive(Default)]`
gives `next_id = 0` and an empty map. -/
structure BaseMeasurements where
  next_id : BMId := 0
  campaigns : List (BMId × BaseMeasurement) := []
  deriving DecidableEq, Repr

/-- Rust's left-to-right short-circuiting
`collect::<Result<Vec<_>, _>>()`: the first `Err` aborts the whole
collection. -/
def collectResults {α : Type} : List (Except Err α) → Except Err (List α)
  | [] => .ok []
  | .error e :: _ => .error e
  | .ok a :: rest => (collectResults rest).map (a :: ·)

/-- `impl TryFrom<nvml::Device> for BaseDeviceData`: read the device's current
total energy consumption; on success retain the handle and the reading. -/
def BaseDeviceData.tryFrom (w : World) (device : DeviceHandle) :
    Except Err BaseDeviceData :=
  ((w device).totalEnergyConsumption).map (fun energy => ⟨device, energy⟩)

/-- `BaseMeasurement::new`: read the device count, then for each index obtain
the handle and its baseline energy; fail wholesale if any step fails. `now` is
the `Instant::now()` taken between the count read and the per-device reads. -/
def BaseMeasurement.new (nvml : Nvml) (w : World) (now : Nat) :
    Except Err BaseMeasurement :=
  match nvml.deviceCount with
  | .error e => .error e
  | .ok device_count =>
    (collectResults ((List.range device_count).map (fun i =>
      match nvml.deviceByIndex i with
      | .error e => .error e
      | .ok d => BaseDeviceData.tryFrom w d))).map
      (fun devices => { time := now, devices })

/-- `BaseDeviceData::relative`: re-read the device's index and current total
energy at measurement time (hardware state `w`), and report the saturating
difference against the baseline energy. -/
def BaseDeviceData.relative (d : BaseDeviceData) (w : World) :
    Except Err DeviceData :=
  match (w d.device).index with
  | .error e => .error e
  | .ok id =>
    match (w d.device).totalEnergyConsumption with
    | .error e => .error e
    | .ok cur => .ok { id, energy := cur - d.energy }

/-- `BaseMeasurement::measurement`: elapsed time since the baseline plus one
relative reading per baseline device; any per-device failure fails the whole
measurement. -/
def BaseMeasurement.measurement (b : BaseMeasurement) (w : World) (now : Nat) :
    Except Err Measurement :=
  (collectResults (b.devices.map (fun d => d.relative w))).map
    (fun devices => { duration := now - b.time, devices })

/-- The collision error message produced by `BaseMeasurements::create`
(`anyhow!("Targeted id {id} already taken")`). -/
def collisionMsg (id : BMId) : Err :=
  "Targeted id " ++ toString id ++ " already taken"

/-- `BaseMeasurements::create`: if the slot `next_id` is vacant, build a new
`BaseMeasurement` (propagating its error without mutating), insert it, advance
the counter with `u32::wrapping_add(1)`, and return the id; if the slot is
occupied, fail with the collision error, mutating nothing. -/
def BaseMeasurements.create (s : BaseMeasurements) (nvml : Nvml) (w : World)
    (now : Nat) : Except Err BMId × BaseMeasurements :=
  match s.campaigns.lookup s.next_id with
  | some _ => (.error (collisionMsg s.next_id), s)
  | none =>
    match BaseMeasurement.new nvml w now with
    | .error e => (.error ("Could not create a new base measurement: " ++ e), s)
    | .ok bm =>
      (.ok s.next_id,
       { next_id := (s.next_id + 1) % 2 ^ 32,
         campaigns := (s.next_id, bm) :: s.campaigns })

/-- `BaseMeasurements::delete`: `HashMap::remove`, returning the removed
snapshot when present. -/
def BaseMeasurements.delete (s : BaseMeasurements) (id : BMId) :
    Option BaseMeasurement × BaseMeasurements :=
  match s.campaigns.lookup id with
  | some bm => (some bm, { s with campaigns := s.campaigns.filter (fun p => p.1 != id) })
  | none => (none, s)

/-- `BaseMeasurements::delete_older_than`:
`self.campaigns.retain(|_, b| b.time < instant)` — the entries for which the
predicate holds are the ones KEPT. -/
def BaseMeasurements.delete_older_than (s : BaseMeasurements) (instant : Nat) :
    BaseMeasurements :=
  { s with campaigns := s.campaigns.filter (fun p => p.2.time < instant) }

/-- `BaseMeasurements::get`: read-only lookup. -/
def BaseMeasurements.get (s : BaseMeasurements) (id : BMId) :
    Option BaseMeasurement :=
  s.campaigns.lookup id

/-- `BaseMeasurements::len`: number of campaigns currently held. -/
def BaseMeasurements.len (s : BaseMeasurements) : Nat :=
  s.campaigns.length

/-- The store's `HashMap` keys are unique; this holds for every store
reachable through the operations above and is the representation invariant of
the association-list model. -/
def BaseMeasurements.KeysNodup (s : BaseMeasurements) : Prop :=
  (s.campaigns.map Prod.fst).Nodup

/-- One wake of the `collect_garbage` loop body in `main.rs` (after the
`select!` has produced `now`): take the write lock, read the live count, and
sweep with cutoff `now - min_age` only when the count has reached
`min_campaigns` (`if count >= min_campaigns.get()`). -/
def collect_garbage_wake (s : BaseMeasurements) (now min_age min_campaigns : Nat) :
    BaseMeasurements :=
  if s.len ≥ min_campaigns then s.delete_older_than (now - min_age) else s

/-- `energy_oneshot` in `main.rs`: build a fresh `BaseMeasurement` (hardware
state `w0`, time `t0`), sleep for the requested duration, then compute the
measurement against the hardware state `w1` at wake time `t1`. It receives no
reference to the campaign store at all. -/
def energy_oneshot (nvml : Nvml) (w0 : World) (t0 : Nat) (w1 : World) (t1 : Nat) :
    Except Err Measurement :=
  match BaseMeasurement.new nvml w0 t0 with
  | .error e => .error e
  | .ok base => base.measurement w1 t1

/-- A request hitting the `/v1/energy` route family in `main.rs`. -/
inductive EnergyRequest where
  | oneshot
  | create
  | delete (id : BMId)
  | measure (id : BMId)
  deriving DecidableEq, Repr

/-- The observable outcome of an `/v1/energy` handler: a JSON measurement
body, the 303 redirect to the fresh campaign, a bare status code
(200 from `StatusCode::OK`, 404 from `StatusCode::NOT_FOUND` or
`reject::not_found`), or a replyified error. -/
inductive EnergyResponse where
  | json (m : Measurement)
  | redirect (id : BMId)
  | status (code : Nat)
  | error (e : Err)
  deriving DecidableEq, Repr

/-- The `/v1/energy` route dispatch of `main.rs` (`energy_oneshot .or
energy_create .or energy_delete .or energy_measure`), as one step on the
store behind its lock. `w0`/`t0` are the hardware state and clock at the
start of handling, `w1`/`t1` at measurement time (for the oneshot flow, after
the sleep). Only the `create` and `delete` arms take the write lock; the
oneshot arm never touches the store, and the measure arm holds a read lock. -/
def energyRoute (s : BaseMeasurements) (nvml : Nvml) (w0 : World) (t0 : Nat)
    (w1 : World) (t1 : Nat) : EnergyRequest → EnergyResponse × BaseMeasurements
  | .oneshot =>
    (match energy_oneshot nvml w0 t0 w1 t1 with
     | .ok m => .json m
     | .error e => .error e, s)
  | .create =>
    match s.create nvml w0 t0 with
    | (.ok id, s') => (.redirect id, s')
    | (.error e, s') => (.error e, s')
  | .delete id =>
    let (removed, s') := s.delete id
    (if removed.isSome then .status 200 else .status 404, s')
  | .measure id =>
    match s.get id with
    | none => (.status 404, s)
    | some b =>
      (match b.measurement w1 t1 with
       | .ok m => .json m
       | .error e => .error e, s)

/-- Run a sequence of `create` calls (no interleaved deletions), threading the
store and recording each call's result; each call may happen under a
different hardware state and at a different time. -/
def runCreates (s : BaseMeasurements) :
    List (Nvml × World × Nat) → List (Except Err BMId) × BaseMeasurements
  | [] => ([], s)
  | c :: rest =>
    let out := s.create c.1 c.2.1 c.2.2
    let next := runCreates out.2 rest
    (out.1 :: next.1, next.2)

/-- `#[derive(Default)]` for `BaseMeasurements`: counter at `0`, empty map. -/
def BaseMeasurements.mkDefault : BaseMeasurements := {}

/-! ## Concrete fixtures used to exercise the model on closed inputs -/

/-- A hardware state on which every device call fails. -/
def failWorld : World := fun _ => ⟨.error "no index", .error "no energy"⟩

/-- A hardware state on which every call succeeds: a handle reports its own
number as index and `10` mJ as cumulative energy. -/
def okWorld : World := fun h => ⟨.ok h, .ok 10⟩

/-- An NVML handle enumerating zero devices. -/
def nvmlEmpty : Nvml := ⟨.ok 0, fun _ => .error "no device"⟩

/-- An NVML handle whose device enumeration itself fails. -/
def nvmlFail : Nvml := ⟨.error "NVML failure", fun _ => .error "no device"⟩

/-- A deviceless baseline snapshot captured at time `t`. -/
def bmAt (t : Nat) : BaseMeasurement := ⟨t, []⟩

/-- A store holding one campaign (id `0`, captured at time `0`), counter at `1`. -/
def storeOne : BaseMeasurements := ⟨1, [(0, bmAt 0)]⟩

/-- A store in the wrap-around collision state: the slot `next_id = 0` is
still occupied by a live campaign. -/
def storeColl : BaseMeasurements := ⟨0, [(0, bmAt 0)]⟩

/-- A baseline snapshot at time `0` over one device: handle `0`, baseline
energy `3` mJ. -/
def bmDev : BaseMeasurement := ⟨0, [⟨0, 3⟩]⟩

/-! ## General lemmas about the `Result` collection combinator -/

/-- Rust's `Result::is_err`. -/
def Except.isErr {ε α : Type} : Except ε α → Bool
  | .ok _ => false
  | .error _ => true

theorem exceptMap_isErr {α β : Type} (f : α → β) (x : Except Err α) :
    (x.map f).isErr = x.isErr := by
  cases x <;> rfl

theorem collectResults_isErr {α : Type} (l : List (Except Err α)) :
    (collectResults l).isErr = true ↔ ∃ x ∈ l, x.isErr = true := by
  induction l with
  | nil => simp [collectResults, Except.isErr]
  | cons x rest ih =>
    cases x with
    | error e => simp [collectResults, Except.isErr]
    | ok a =>
      simp only [collectResults, exceptMap_isErr, ih, List.mem_cons]
      constructor
      · rintro ⟨y, hy, hErr⟩; exact ⟨y, Or.inr hy, hErr⟩
      · rintro ⟨y, hy | hy, hErr⟩
        · subst hy; simp [Except.isErr] at hErr
        · exact ⟨y, hy, hErr⟩

theorem collectResults_ok_length {α : Type} {l : List (Except Err α)}
    {r : List α} (h : collectResults l = .ok r) : r.length = l.length := by
  induction l generalizing r with
  | nil => simp [collectResults] at h; subst h; rfl
  | cons x rest ih =>
    cases x with
    | error e => simp [collectResults] at h
    | ok a =>
      simp only [collectResults] at h
      cases hr : collectResults rest with
      | error e => rw [hr] at h; simp [Except.map] at h
      | ok rs =>
        rw [hr] at h
        simp only [Except.map, Except.ok.injEq] at h
        subst h
        simp [ih hr]

theorem collectResults_ok_get {α : Type} {l : List (Except Err α)}
    {r : List α} (h : collectResults l = .ok r) :
    ∀ i (hl : i < l.length) (hr : i < r.length), l.get ⟨i, hl⟩ = .ok (r.get ⟨i, hr⟩) := by
  induction l generalizing r with
  | nil => intro i hl; simp at hl
  | cons x rest ih =>
    cases x with
    | error e => simp [collectResults] at h
    | ok a =>
      simp only [collectResults] at h
      cases hrest : collectResults rest with
      | error e => rw [hrest] at h; simp [Except.map] at h
      | ok rs =>
        rw [hrest] at h
        simp only [Except.map, Except.ok.injEq] at h
        subst h
        intro i hl hr
        cases i with
        | zero => rfl
        | succ j =>
          exact ih hrest j (Nat.lt_of_succ_lt_succ hl) (Nat.lt_of_succ_lt_succ hr)

/-! ## C4: saturating per-device delta -/

/-- C4: Per-device energy deltas are saturating u64 subtractions: for every
baseline value `b` and every current reading `c`, the reported delta equals
`c - b` when `c ≥ b` and equals `0` when `c < b`; a delta is never negative
and never wraps around. -/
theorem C4_saturating_delta (w : World) (dev : DeviceHandle) (b i c : Nat)
    (hidx : (w dev).index = .ok i)
    (hen : (w dev).totalEnergyConsumption = .ok c) :
    BaseDeviceData.relative ⟨dev, b⟩ w = .ok ⟨i, if b ≤ c then c - b else 0⟩ := by
  simp only [BaseDeviceData.relative, hidx, hen]
  split
  · rfl
  · next h => simp [Nat.sub_eq_zero_of_le (Nat.le_of_lt (Nat.lt_of_not_le h))]

theorem C4_saturating_delta_witness :
    BaseDeviceData.relative ⟨0, 7⟩ (fun _ => ⟨Except.ok 0, Except.ok 5⟩) =
      Except.ok ⟨0, if 7 ≤ 5 then 5 - 7 else 0⟩ :=
  C4_saturating_delta (fun _ => ⟨Except.ok 0, Except.ok 5⟩) 0 7 0 5 rfl rfl

/-! ## C6: measurements are all-or-nothing -/

/-- C6: A delta measurement is all-or-nothing: for every baseline snapshot, the
measurement fails exactly when re-reading one of the snapshot's devices fails
(index unresolvable or energy read error); no partial device list can be
produced, and it succeeds precisely when every baseline device re-reads. -/
theorem C6_measurement_all_or_nothing (b : BaseMeasurement) (w : World) (now : Nat) :
    (b.measurement w now).isErr = true ↔ ∃ d ∈ b.devices, (d.relative w).isErr = true := by
  unfold BaseMeasurement.measurement
  rw [exceptMap_isErr, collectResults_isErr]
  constructor
  · rintro ⟨x, hx, hErr⟩
    rw [List.mem_map] at hx
    obtain ⟨d, hd, rfl⟩ := hx
    exact ⟨d, hd, hErr⟩
  · rintro ⟨d, hd, hErr⟩
    exact ⟨d.relative w, List.mem_map_of_mem _ hd, hErr⟩

/-! ## C7: the oneshot flow never touches the store -/

/-- C7: The oneshot flow (baseline, timed wait, delta) never touches the
campaign store: whatever the outcome, after handling an oneshot request the
store's contents and `len()` are identical and the ID counter has not moved. -/
theorem C7_oneshot_frame (s : BaseMeasurements) (nvml : Nvml) (w0 : World)
    (t0 : Nat) (w1 : World) (t1 : Nat) :
    (energyRoute s nvml w0 t0 w1 t1 .oneshot).2 = s ∧
    (energyRoute s nvml w0 t0 w1 t1 .oneshot).2.len = s.len ∧
    (energyRoute s nvml w0 t0 w1 t1 .oneshot).2.next_id = s.next_id :=
  ⟨rfl, rfl, rfl⟩

/-! ## C1: `delete_older_than` (code bug: retention predicate inverted) -/

/-- C1: At the failing input — a store holding campaign `0` captured at time
`0` and campaign `1` captured at time `1` — sweeping with cutoff `1` *keeps*
the snapshot whose capture time `0` is strictly before the cutoff and
*removes* the snapshot whose capture time equals the cutoff: the exact
inversion of the claimed (and documented) behaviour, caused by
`retain(|_, b| b.time < instant)` keeping what it should drop. -/
theorem C1_delete_older_than_inverted :
    ((⟨2, [(0, ⟨0, []⟩), (1, ⟨1, []⟩)]⟩ : BaseMeasurements).delete_older_than 1).get 0
        = some ⟨0, []⟩ ∧
    ((⟨2, [(0, ⟨0, []⟩), (1, ⟨1, []⟩)]⟩ : BaseMeasurements).delete_older_than 1).get 1
        = none := by
  decide

/-! ## C5: GC threshold gating -/

/-- C5: On every GC wake, if the live campaign count is at least the
`min_campaigns` threshold the scheduler sweeps with cutoff
`wake_time - min_age`, and if the count is strictly below the threshold the
store is left completely unchanged. -/
theorem C5_gc_threshold (s : BaseMeasurements) (now min_age min_campaigns : Nat) :
    (min_campaigns ≤ s.len →
      collect_garbage_wake s now min_age min_campaigns
        = s.delete_older_than (now - min_age)) ∧
    (s.len < min_campaigns →
      collect_garbage_wake s now min_age min_campaigns = s) := by
  constructor
  · intro h
    simp [collect_garbage_wake, h]
  · intro h
    simp [collect_garbage_wake, Nat.not_le.mpr h]

theorem C5_gc_threshold_witness :
    collect_garbage_wake storeOne 5 3 1 = storeOne.delete_older_than (5 - 3) ∧
    collect_garbage_wake storeOne 5 3 2 = storeOne :=
  ⟨(C5_gc_threshold storeOne 5 3 1).1 (by decide),
   (C5_gc_threshold storeOne 5 3 2).2 (by decide)⟩

/-! ## C10: one output entry per baseline device, in order -/

/-- C10: Every successful delta measurement has exactly one entry per device
recorded in the baseline, in the same order as the baseline's readings (so
devices enumerable only after the baseline never contribute an entry). -/
theorem C10_delta_per_baseline_device (b : BaseMeasurement) (w : World)
    (now : Nat) (m : Measurement) (h : b.measurement w now = .ok m) :
    m.devices.length = b.devices.length ∧
    ∀ i (hb : i < b.devices.length) (hm : i < m.devices.length),
      (b.devices.get ⟨i, hb⟩).relative w = .ok (m.devices.get ⟨i, hm⟩) := by
  unfold BaseMeasurement.measurement at h
  cases hc : collectResults (b.devices.map (fun d => d.relative w)) with
  | error e => rw [hc] at h; simp [Except.map] at h
  | ok ds =>
    rw [hc] at h
    simp only [Except.map, Except.ok.injEq] at h
    subst h
    refine ⟨by simpa using collectResults_ok_length hc, ?_⟩
    intro i hb hm
    have hget := collectResults_ok_get hc i (by simpa using hb) hm
    rw [List.get_map] at hget
    exact hget

theorem C10_delta_per_baseline_device_witness :
    ((⟨4, [⟨0, 7⟩]⟩ : Measurement).devices.length = bmDev.devices.length) ∧
    (bmDev.devices.get ⟨0, by decide⟩).relative okWorld
      = .ok ((⟨4, [⟨0, 7⟩]⟩ : Measurement).devices.get ⟨0, by decide⟩) :=
  ⟨(C10_delta_per_baseline_device bmDev okWorld 4 ⟨4, [⟨0, 7⟩]⟩ rfl).1,
   (C10_delta_per_baseline_device bmDev okWorld 4 ⟨4, [⟨0, 7⟩]⟩ rfl).2 0
     (by decide) (by decide)⟩

/-! ## Association-list lemmas for `HashMap::remove` -/

theorem lookup_filter_key_ne {β : Type} (id : BMId) (l : List (BMId × β)) :
    (l.filter (fun p => p.1 != id)).lookup id = none := by
  induction l with
  | nil => rfl
  | cons p rest ih =>
    obtain ⟨k, v⟩ := p
    by_cases hk : k = id
    · subst hk
      simpa [List.filter_cons] using ih
    · have h1 : (k != id) = true := bne_iff_ne.mpr hk
      have h2 : (id == k) = false := beq_eq_false_iff_ne.mpr (Ne.symm hk)
      simp [List.filter_cons, h1, List.lookup_cons, h2, ih]

theorem length_filter_key_ne {β : Type} (id : BMId) (l : List (BMId × β)) (b : β)
    (hnd : (l.map Prod.fst).Nodup) (h : l.lookup id = some b) :
    (l.filter (fun p => p.1 != id)).length + 1 = l.length := by
  induction l with
  | nil => simp at h
  | cons p rest ih =>
    obtain ⟨k, v⟩ := p
    simp only [List.map_cons, List.nodup_cons] at hnd
    by_cases hk : k = id
    · subst hk
      have hall : ∀ p ∈ rest, (p.1 != k) = true := by
        intro p hp
        exact bne_iff_ne.mpr (fun he => hnd.1 (he ▸ List.mem_map_of_mem Prod.fst hp))
      simp [List.filter_cons, List.filter_eq_self.mpr hall]
    · have h1 : (k != id) = true := bne_iff_ne.mpr hk
      have h2 : (id == k) = false := beq_eq_false_iff_ne.mpr (Ne.symm hk)
      have h' : rest.lookup id = some b := by
        simpa [List.lookup_cons, h2] using h
      have := ih hnd.2 h'
      simp only [List.filter_cons, h1, if_true, List.length_cons]
      omega

/-! ## C8: delete semantics and the DELETE handler's status codes -/

/-- C8: `delete(id)` returns the removed snapshot exactly when `id` is present
(after which `get id` is `none` and `len` has dropped by one), signals
not-found leaving the store unchanged when `id` is absent, and the HTTP DELETE
handler answers 200 in the first case and 404 in the second. -/
theorem C8_delete_semantics (s : BaseMeasurements) (id : BMId) (nvml : Nvml)
    (w0 : World) (t0 : Nat) (w1 : World) (t1 : Nat) (hnd : s.KeysNodup) :
    (∀ bm, s.get id = some bm →
      (s.delete id).1 = some bm ∧
      ((s.delete id).2).get id = none ∧
      ((s.delete id).2).len + 1 = s.len ∧
      energyRoute s nvml w0 t0 w1 t1 (.delete id) = (.status 200, (s.delete id).2)) ∧
    (s.get id = none →
      s.delete id = (none, s) ∧
      energyRoute s nvml w0 t0 w1 t1 (.delete id) = (.status 404, s)) := by
  constructor
  · intro bm hbm
    have hdel : s.delete id
        = (some bm, { s with campaigns := s.campaigns.filter (fun p => p.1 != id) }) := by
      unfold BaseMeasurements.delete
      rw [show s.campaigns.lookup id = some bm from hbm]
    refine ⟨by rw [hdel], ?_, ?_, ?_⟩
    · rw [hdel]
      exact lookup_filter_key_ne id s.campaigns
    · rw [hdel]
      exact length_filter_key_ne id s.campaigns bm hnd hbm
    · simp [energyRoute, hdel]
  · intro hnone
    have hdel : s.delete id = (none, s) := by
      unfold BaseMeasurements.delete
      rw [show s.campaigns.lookup id = none from hnone]
    exact ⟨hdel, by simp [energyRoute, hdel]⟩

theorem C8_delete_semantics_witness :
    ((storeOne.delete 0).1 = some (bmAt 0) ∧
      ((storeOne.delete 0).2).get 0 = none ∧
      ((storeOne.delete 0).2).len + 1 = storeOne.len ∧
      energyRoute storeOne nvmlEmpty okWorld 0 okWorld 1 (.delete 0)
        = (.status 200, (storeOne.delete 0).2)) ∧
    (storeOne.delete 5 = (none, storeOne) ∧
      energyRoute storeOne nvmlEmpty okWorld 0 okWorld 1 (.delete 5)
        = (.status 404, storeOne)) :=
  ⟨(C8_delete_semantics storeOne 0 nvmlEmpty okWorld 0 okWorld 1
      (by simp [BaseMeasurements.KeysNodup, storeOne])).1 (bmAt 0) (by decide),
   (C8_delete_semantics storeOne 5 nvmlEmpty okWorld 0 okWorld 1
      (by simp [BaseMeasurements.KeysNodup, storeOne])).2 (by decide)⟩

/-! ## The `create` path -/

theorem create_of_isOk (s : BaseMeasurements) (nvml : Nvml) (w : World) (t : Nat)
    (h : ((s.create nvml w t).1).isOk = true) :
    ∃ bm, s.create nvml w t
      = (.ok s.next_id,
         { next_id := (s.next_id + 1) % 2 ^ 32,
           campaigns := (s.next_id, bm) :: s.campaigns }) := by
  unfold BaseMeasurements.create at *
  cases hl : s.campaigns.lookup s.next_id with
  | some bm =>
    rw [hl] at h
    simp [Except.isOk, Except.toBool] at h
  | none =>
    cases hn : BaseMeasurement.new nvml w t with
    | error e =>
      rw [hl, hn] at h
      simp [Except.isOk, Except.toBool] at h
    | ok bm => exact ⟨bm, rfl⟩

theorem runCreates_ids (inputs : List (Nvml × World × Nat)) :
    ∀ s : BaseMeasurements, s.next_id < 2 ^ 32 →
      (∀ r ∈ (runCreates s inputs).1, r.isOk = true) →
      (runCreates s inputs).1
        = (List.range inputs.length).map (fun k => Except.ok ((s.next_id + k) % 2 ^ 32)) := by
  induction inputs with
  | nil => intro s _ _; simp [runCreates]
  | cons c rest ih =>
    intro s hlt hok
    have hstep : runCreates s (c :: rest)
        = ((s.create c.1 c.2.1 c.2.2).1
            :: (runCreates (s.create c.1 c.2.1 c.2.2).2 rest).1,
           (runCreates (s.create c.1 c.2.1 c.2.2).2 rest).2) := rfl
    have hheadok : ((s.create c.1 c.2.1 c.2.2).1).isOk = true := by
      apply hok
      rw [hstep]
      exact List.mem_cons_self _ _
    obtain ⟨bm, hcr⟩ := create_of_isOk s c.1 c.2.1 c.2.2 hheadok
    have hok' : ∀ r ∈ (runCreates
        ({ next_id := (s.next_id + 1) % 2 ^ 32,
           campaigns := (s.next_id, bm) :: s.campaigns } : BaseMeasurements) rest).1,
        r.isOk = true := by
      intro r hr
      apply hok
      rw [hstep, hcr]
      exact List.mem_cons_of_mem _ hr
    have hrest := ih _ (Nat.mod_lt _ (by norm_num)) hok'
    dsimp only at hrest
    rw [hstep]
    simp only [hcr]
    rw [hrest, List.length_cons, List.range_succ_eq_map, List.map_cons, List.map_map]
    have e32 : (2 : ℕ) ^ 32 = 4294967296 := by norm_num
    rw [e32] at hlt
    congr 1
    · simp [e32, Nat.mod_eq_of_lt hlt]
    · refine congrArg (fun f => List.map f (List.range rest.length)) ?_
      funext k
      simp only [Function.comp_apply, e32, Except.ok.injEq]
      rw [Nat.mod_add_mod, Nat.succ_eq_add_one, Nat.add_assoc, Nat.add_comm 1 k]

/-! ## C2: ID monotonicity -/

/-- C2: Starting from a fresh store, every sequence of successful `create`
calls with no interleaved deletions returns the campaign IDs
`0, 1, 2, …` (mod `2^32`): each call returns the counter value and the
counter advances by exactly one per successful insertion. -/
theorem C2_id_monotonic (inputs : List (Nvml × World × Nat))
    (hok : ∀ r ∈ (runCreates BaseMeasurements.mkDefault inputs).1, r.isOk = true) :
    (runCreates BaseMeasurements.mkDefault inputs).1
      = (List.range inputs.length).map (fun k => Except.ok (k % 2 ^ 32)) := by
  have h := runCreates_ids inputs BaseMeasurements.mkDefault (by decide) hok
  simpa [BaseMeasurements.mkDefault] using h

theorem C2_id_monotonic_witness :
    (runCreates BaseMeasurements.mkDefault
        [(nvmlEmpty, okWorld, 0), (nvmlEmpty, okWorld, 1), (nvmlEmpty, okWorld, 2)]).1
      = (List.range 3).map (fun k => Except.ok (k % 2 ^ 32)) :=
  C2_id_monotonic
    [(nvmlEmpty, okWorld, 0), (nvmlEmpty, okWorld, 1), (nvmlEmpty, okWorld, 2)]
    (by decide)

/-! ## C3: atomic creation -/

/-- C3: Creation is atomic: if building the baseline snapshot fails (any
device read error), `create` returns an error, the campaign map is exactly as
it was (`len()` unchanged, no entry added or altered) and the ID counter has
not advanced. -/
theorem C3_create_atomic (s : BaseMeasurements) (nvml : Nvml) (w : World) (t : Nat)
    (hfail : (BaseMeasurement.new nvml w t).isErr = true) :
    ((s.create nvml w t).1).isErr = true ∧
    (s.create nvml w t).2 = s ∧
    ((s.create nvml w t).2).len = s.len ∧
    ((s.create nvml w t).2).next_id = s.next_id := by
  have key : ∃ e, s.create nvml w t = (.error e, s) := by
    unfold BaseMeasurements.create
    cases hl : s.campaigns.lookup s.next_id with
    | some bm => exact ⟨_, rfl⟩
    | none =>
      cases hn : BaseMeasurement.new nvml w t with
      | error e => exact ⟨_, rfl⟩
      | ok bm => rw [hn] at hfail; simp [Except.isErr] at hfail
  obtain ⟨e, he⟩ := key
  rw [he]
  exact ⟨rfl, rfl, rfl, rfl⟩

theorem C3_create_atomic_witness :
    ((BaseMeasurements.mkDefault.create nvmlFail failWorld 0).1).isErr = true ∧
    (BaseMeasurements.mkDefault.create nvmlFail failWorld 0).2
      = BaseMeasurements.mkDefault ∧
    ((BaseMeasurements.mkDefault.create nvmlFail failWorld 0).2).len
      = BaseMeasurements.mkDefault.len ∧
    ((BaseMeasurements.mkDefault.create nvmlFail failWorld 0).2).next_id
      = BaseMeasurements.mkDefault.next_id :=
  C3_create_atomic BaseMeasurements.mkDefault nvmlFail failWorld 0 rfl

/-! ## C9: wrap-around ID collision -/

/-- C9: When `create` finds its freshly allocated ID already occupied, it
returns the collision error without modifying the store or advancing the
counter, and every subsequent `create` deterministically fails with the same
collision error (as long as that campaign is not deleted). -/
theorem C9_wraparound_collision (s : BaseMeasurements) (nvml : Nvml) (w : World)
    (t : Nat) (hocc : (s.get s.next_id).isSome = true) :
    s.create nvml w t = (.error (collisionMsg s.next_id), s) ∧
    ∀ (nvml' : Nvml) (w' : World) (t' : Nat),
      ((s.create nvml w t).2).create nvml' w' t'
        = (.error (collisionMsg s.next_id), s) := by
  have hgen : ∀ (nv : Nvml) (ww : World) (tt : Nat),
      s.create nv ww tt = (.error (collisionMsg s.next_id), s) := by
    intro nv ww tt
    unfold BaseMeasurements.create
    cases hl : s.campaigns.lookup s.next_id with
    | some bm => rfl
    | none =>
      unfold BaseMeasurements.get at hocc
      rw [hl] at hocc
      simp at hocc
  refine ⟨hgen nvml w t, fun nvml' w' t' => ?_⟩
  rw [hgen nvml w t]
  exact hgen nvml' w' t'

theorem C9_wraparound_collision_witness :
    storeColl.create nvmlEmpty okWorld 0
      = (.error (collisionMsg storeColl.next_id), storeColl) ∧
    ((storeColl.create nvmlEmpty okWorld 0).2).create nvmlFail failWorld 3
      = (.error (collisionMsg storeColl.next_id), storeColl) :=
  ⟨(C9_wraparound_collision storeColl nvmlEmpty okWorld 0 rfl).1,
   (C9_wraparound_collision storeColl nvmlEmpty okWorld 0 rfl).2 nvmlFail failWorld 3⟩
